import Mathlib

/-!
Verification of the telemetry client of the Dashboard repository
(`src/libs/api`, the `Client` class) against its natural-language
specification.

The embedding models:
* JSON values and `JSON.parse` (the JavaScript built-in used by the client);
* JavaScript's `String.prototype.split` with a one-character separator;
* the `Client` class: its `AXIS` enum table, listener registry,
  `addListener`, `trigger`, and the `onopen` / `onmessage` handlers
  installed by `createSocket`.

Message text is modelled as `List Char` (JS strings are char sequences);
outbound sends and callback invocations are recorded as an explicit event
trace.  A JavaScript exception escaping the `onmessage` handler is modelled
by the `threw` flag of `StepResult`; in the browser event loop such an
exception does not unwind any state and later messages are still delivered,
which is reflected by `Client.processMessages` continuing from the same
state.
-/

/-- A JSON number in canonical scientific form: the value is
`(-1)^neg * mantissa * 10^exp10`, with `mantissa` not divisible by 10
unless it is 0, and the zero value represented as `⟨false, 0, 0⟩`.
Two JSON number literals denote the same JavaScript number exactly when
their canonical forms agree (floating-point rounding is not modelled; the
telemetry values of interest are small decimals). -/
structure JNum where
  neg : Bool
  mantissa : Nat
  exp10 : Int
  deriving DecidableEq

mutual

/-- JSON values, as produced by `JSON.parse`. -/
inductive JValue where
  | null
  | bool (b : Bool)
  | num (n : JNum)
  | str (s : String)
  | arr (elems : JArray)
  | obj (fields : JObject)
  deriving DecidableEq

inductive JArray where
  | nil
  | cons (v : JValue) (rest : JArray)
  deriving DecidableEq

inductive JObject where
  | nil
  | cons (key : String) (v : JValue) (rest : JObject)
  deriving DecidableEq

end

/-- Property access on a parsed JSON object.  `JSON.parse` keeps the last
occurrence of a duplicated key, so the lookup prefers later fields. -/
def JObject.get? : JObject → String → Option JValue
  | .nil, _ => none
  | .cons k v rest, key =>
    match rest.get? key with
    | some w => some w
    | none => if k = key then some v else none

/-- JavaScript optional-chaining property access `v?.[key]`: reading a
property of a non-object yields `undefined` (`none`). -/
def JValue.get? : JValue → String → Option JValue
  | .obj fields, key => fields.get? key
  | _, _ => none

/-- JavaScript truthiness of a value (`undefined` is represented by `none`
at use sites; `NaN` does not arise since numbers are exact rationals). -/
def JValue.truthy : JValue → Bool
  | .null => false
  | .bool b => b
  | .num n => n.mantissa ≠ 0
  | .str s => s ≠ ""
  | .arr _ => true
  | .obj _ => true

/-! ### A model of `JSON.parse` -/

/-- JSON insignificant whitespace. -/
def isJsonWs (c : Char) : Bool := c = ' ' || c = '\t' || c = '\n' || c = '\r'

def skipWs : List Char → List Char
  | [] => []
  | c :: cs => if isJsonWs c then skipWs cs else c :: cs

def digitsToNat (ds : List Char) : Nat :=
  ds.foldl (fun a c => a * 10 + (c.toNat - '0'.toNat)) 0

/-- The fractional part of a JSON number: either absent, or a dot followed
by at least one digit. -/
def parseFrac : List Char → Option (List Char × List Char)
  | '.' :: rest =>
    let ds := rest.takeWhile Char.isDigit
    if ds.isEmpty then none else some (ds, rest.dropWhile Char.isDigit)
  | cs => some ([], cs)

/-- The exponent part of a JSON number: either absent, or `e`/`E`, an
optional sign, and at least one digit. -/
def parseExp : List Char → Option (Int × List Char)
  | [] => some (0, [])
  | c :: rest =>
    if c = 'e' ∨ c = 'E' then
      match rest with
      | '+' :: r2 =>
        let ds := r2.takeWhile Char.isDigit
        if ds.isEmpty then none
        else some ((digitsToNat ds : Int), r2.dropWhile Char.isDigit)
      | '-' :: r2 =>
        let ds := r2.takeWhile Char.isDigit
        if ds.isEmpty then none
        else some (-(digitsToNat ds : Int), r2.dropWhile Char.isDigit)
      | r2 =>
        let ds := r2.takeWhile Char.isDigit
        if ds.isEmpty then none
        else some ((digitsToNat ds : Int), r2.dropWhile Char.isDigit)
    else some (0, c :: rest)

/-- Canonicalize a decimal `(-1)^neg * digits * 10^exp` into a `JNum`:
trailing zero digits move into the exponent, leading zeros vanish in the
mantissa, and zero forgets its sign and exponent (`-0 === 0` in JS). -/
def mkJNum (neg : Bool) (digits : List Char) (exp : Int) : JNum :=
  let rev := digits.reverse
  let stripped := rev.dropWhile (fun c => c = '0')
  let m := digitsToNat stripped.reverse
  if m = 0 then ⟨false, 0, 0⟩
  else ⟨neg, m, exp + ((rev.length - stripped.length : Nat) : Int)⟩

/-- A JSON number: optional minus sign, integer part (`0`, or a nonzero
leading digit followed by digits), optional fraction, optional exponent. -/
def parseNumber (cs : List Char) : Option (JNum × List Char) :=
  let signed : Bool × List Char :=
    match cs with
    | '-' :: rest => (true, rest)
    | _ => (false, cs)
  match signed.2 with
  | [] => none
  | c :: rest =>
    if ¬ c.isDigit then none
    else
      let intRest : List Char × List Char :=
        if c = '0' then ([c], rest)
        else (signed.2.takeWhile Char.isDigit, signed.2.dropWhile Char.isDigit)
      match parseFrac intRest.2 with
      | none => none
      | some (fracDs, cs3) =>
        match parseExp cs3 with
        | none => none
        | some (e, cs4) =>
          some (mkJNum signed.1 (intRest.1 ++ fracDs) (e - (fracDs.length : Int)), cs4)

/-- One hexadecimal digit. -/
def hexVal (c : Char) : Option Nat :=
  if c.isDigit then some (c.toNat - '0'.toNat)
  else if 'a' ≤ c ∧ c ≤ 'f' then some (c.toNat - 'a'.toNat + 10)
  else if 'A' ≤ c ∧ c ≤ 'F' then some (c.toNat - 'A'.toNat + 10)
  else none

/-- The body of a JSON string, after the opening quote.  Control characters
must be escaped; the supported escapes are those of the JSON grammar. -/
def parseStringBody (acc : List Char) : List Char → Option (String × List Char)
  | [] => none
  | '"' :: rest => some (String.mk acc.reverse, rest)
  | '\\' :: rest =>
    match rest with
    | [] => none
    | e :: r1 =>
      match e with
      | '"' => parseStringBody ('"' :: acc) r1
      | '\\' => parseStringBody ('\\' :: acc) r1
      | '/' => parseStringBody ('/' :: acc) r1
      | 'b' => parseStringBody ('\x08' :: acc) r1
      | 'f' => parseStringBody ('\x0c' :: acc) r1
      | 'n' => parseStringBody ('\n' :: acc) r1
      | 'r' => parseStringBody ('\r' :: acc) r1
      | 't' => parseStringBody ('\t' :: acc) r1
      | 'u' =>
        match r1 with
        | h1 :: h2 :: h3 :: h4 :: r2 =>
          match hexVal h1, hexVal h2, hexVal h3, hexVal h4 with
          | some a, some b, some c, some d =>
            parseStringBody (Char.ofNat (((a * 16 + b) * 16 + c) * 16 + d) :: acc) r2
          | _, _, _, _ => none
        | _ => none
      | _ => none
  | c :: rest => if c.toNat < 32 then none else parseStringBody (c :: acc) rest

mutual

/-- A JSON value (leading whitespace allowed).  `fuel` bounds the recursion
depth; `JSON.parse` supplies more fuel than any input can consume. -/
def parseValue : Nat → List Char → Option (JValue × List Char)
  | 0, _ => none
  | fuel + 1, cs =>
    match skipWs cs with
    | 'n' :: 'u' :: 'l' :: 'l' :: rest => some (.null, rest)
    | 't' :: 'r' :: 'u' :: 'e' :: rest => some (.bool true, rest)
    | 'f' :: 'a' :: 'l' :: 's' :: 'e' :: rest => some (.bool false, rest)
    | '"' :: rest =>
      match parseStringBody [] rest with
      | some (s, r2) => some (.str s, r2)
      | none => none
    | '[' :: rest =>
      match skipWs rest with
      | ']' :: r2 => some (.arr .nil, r2)
      | r2 => parseArrayItems fuel r2
    | '{' :: rest =>
      match skipWs rest with
      | '}' :: r2 => some (.obj .nil, r2)
      | r2 => parseObjectItems fuel r2
    | rest =>
      match parseNumber rest with
      | some (q, r2) => some (.num q, r2)
      | none => none

/-- The items of a nonempty JSON array, up to and including `]`. -/
def parseArrayItems : Nat → List Char → Option (JValue × List Char)
  | 0, _ => none
  | fuel + 1, cs =>
    match parseValue fuel cs with
    | none => none
    | some (v, rest) =>
      match skipWs rest with
      | ',' :: r2 =>
        match parseArrayItems fuel r2 with
        | some (.arr items, r3) => some (.arr (.cons v items), r3)
        | _ => none
      | ']' :: r2 => some (.arr (.cons v .nil), r2)
      | _ => none

/-- The members of a nonempty JSON object, up to and including the
closing brace. -/
def parseObjectItems : Nat → List Char → Option (JValue × List Char)
  | 0, _ => none
  | fuel + 1, cs =>
    match skipWs cs with
    | '"' :: rest =>
      match parseStringBody [] rest with
      | none => none
      | some (k, r2) =>
        match skipWs r2 with
        | ':' :: r3 =>
          match parseValue fuel r3 with
          | none => none
          | some (v, r4) =>
            match skipWs r4 with
            | ',' :: r5 =>
              match parseObjectItems fuel r5 with
              | some (.obj items, r6) => some (.obj (.cons k v items), r6)
              | _ => none
            | '}' :: r5 => some (.obj (.cons k v .nil), r5)
            | _ => none
        | _ => none
    | _ => none

end

namespace JSON

/-- Model of the JavaScript built-in `JSON.parse`: `none` means the built-in
throws a `SyntaxError`. -/
def parse (cs : List Char) : Option JValue :=
  match parseValue (2 * cs.length + 8) cs with
  | some (v, rest) => if (skipWs rest).isEmpty then some v else none
  | none => none

end JSON

/-- JavaScript `String.prototype.split` with a single-character separator:
`"".split(s) = [""]`, and every occurrence of the separator starts a new
segment. -/
def jsSplit (sep : Char) : List Char → List (List Char)
  | [] => [[]]
  | c :: cs =>
    if c = sep then [] :: jsSplit sep cs
    else
      match jsSplit sep cs with
      | [] => [[c]]
      | t :: ts => (c :: t) :: ts

/-! ### The telemetry client (`src/libs/api`, class `Client`) -/

/-- The `AXIS` enum of the source: each axis name maps to the fixed opaque
component key used to locate its value inside the frame. -/
inductive AXIS where
  | BRAKE
  | THROTTLE
  | CLUTCH
  | STEERING
  deriving DecidableEq

/-- The string value of each `AXIS` enum member (`AXIS[axi]` in the
source). -/
def AXIS.key : AXIS → String
  | .BRAKE => "1_15r0"
  | .THROTTLE => "1_13r0"
  | .CLUTCH => "1_14r0"
  | .STEERING => "1_2"

/-- Callbacks are identified by an id; an invocation records which
callback ran, for which axis it was registered, and the value it
received. -/
inductive Event where
  | send (msg : List Char)
  | invoke (axi : AXIS) (cb : Nat) (v : JValue)
  deriving DecidableEq

/-- The mutable fields of a `Client` instance: the listener registry
(`this.listeners`, a JS object whose keys iterate in insertion order) and
the latest parsed frame (`this.data`, initially `{}`). -/
structure ClientState where
  listeners : List (AXIS × List Nat)
  data : JValue
  deriving DecidableEq

/-- `Client.addListener` on the registry: create the axis's list if absent
(the new key goes to the end of the key order), then push the callback. -/
def addListenerTo : List (AXIS × List Nat) → AXIS → Nat → List (AXIS × List Nat)
  | [], axi, cb => [(axi, [cb])]
  | (a, cbs) :: rest, axi, cb =>
    if a = axi then (a, cbs ++ [cb]) :: rest
    else (a, cbs) :: addListenerTo rest axi cb

namespace Client

/-- `Client.addListener(axi, callback)`: updates the registry and returns
the `[axi, callback]` pair. -/
def addListener (st : ClientState) (axi : AXIS) (cb : Nat) :
    ClientState × (AXIS × Nat) :=
  ({ st with listeners := addListenerTo st.listeners axi cb }, (axi, cb))

/-- The lookup `this.data?.d?.C?.[AXIS[axi]]` performed by
`Client.trigger`. -/
def axisLookup (data : JValue) (axi : AXIS) : Option JValue :=
  (data.get? "d").bind fun d => (d.get? "C").bind fun c => c.get? axi.key

/-- `Client.trigger`: for each registered axis (in key order), if the
current frame holds a truthy value at the axis's key path, call every
registered listener with that value, in registration order. -/
def trigger (st : ClientState) : List Event :=
  st.listeners.flatMap fun p =>
    match axisLookup st.data p.1 with
    | some v => if v.truthy then p.2.map fun c => Event.invoke p.1 c v else []
    | none => []

/-- The server's acknowledgement token `-1|echo`. -/
def hsAck : List Char := "-1|echo".data

/-- The four sends performed on receipt of the acknowledgement token. -/
def handshakeBurst : List Event :=
  [.send "pid|-1".data,
   .send "mainTemplateLoading|".data,
   .send "registerComponents|/Dashtemplates/RSC - Input Display - Analog/RSC - Input Display - Analog.djson".data,
   .send "mainTemplateLoaded|".data]

/-- The outcome of one run of the `socket.onmessage` handler: the state of
the client afterwards, the sends and callback invocations it performed (in
order), and whether an exception escaped the handler. -/
structure StepResult where
  state : ClientState
  events : List Event
  threw : Bool
  deriving DecidableEq

/-- The `socket.onmessage` handler installed by `Client.createSocket`.
If the text equals `-1|echo`, send the four-message burst; otherwise split
the text on `|`, send `pid|` followed by element 0, parse element 1 as
JSON (throwing when element 1 is absent or unparsable, after the ack was
already sent), store the parsed frame wholesale, and run `trigger`. -/
def onmessage (st : ClientState) (message : List Char) : StepResult :=
  if message = hsAck then
    { state := st, events := handshakeBurst, threw := false }
  else
    let response := jsSplit '|' message
    let ack : Event := .send ("pid|".data ++ response.headD [])
    match response[1]? with
    | none => { state := st, events := [ack], threw := true }
    | some d =>
      match JSON.parse d with
      | none => { state := st, events := [ack], threw := true }
      | some v =>
        let st2 : ClientState := { st with data := v }
        { state := st2, events := ack :: trigger st2, threw := false }

/-- Deliver a sequence of inbound messages.  An exception escaping one
`onmessage` run does not unwind the client's state and does not stop the
browser from dispatching later messages. -/
def processMessages (st : ClientState) : List (List Char) → ClientState × List Event
  | [] => (st, [])
  | m :: ms =>
    let r := onmessage st m
    let rest := processMessages r.state ms
    (rest.1, r.events ++ rest.2)

/-- A whole connection as wired by `Client.createSocket`: on transport
open the client sends `echo|`, then each inbound message is handled by
`onmessage`.  `l` is the listener registry at the time the messages
arrive; `this.data` starts as `{}`. -/
def connectionEvents (l : List (AXIS × List Nat)) (msgs : List (List Char)) :
    List Event :=
  Event.send "echo|".data ::
    (processMessages { listeners := l, data := .obj .nil } msgs).2

end Client

/-- The field read by the registered callbacks of `ClientProvider.tsx` and
declared by the source's `IAXIS_DATA` interface: `CurrentAngle` for
`BRAKE`, `THROTTLE`, `CLUTCH` and `Rotation` for `STEERING`. -/
def codeAxisField : AXIS → String
  | .BRAKE => "CurrentAngle"
  | .THROTTLE => "CurrentAngle"
  | .CLUTCH => "CurrentAngle"
  | .STEERING => "Rotation"

/-- Whether a value has the axis value shape declared by the source
(`IAXIS_DATA`): an object whose `codeAxisField` member is a number. -/
def codeAxisShape (axi : AXIS) (v : JValue) : Bool :=
  match v.get? (codeAxisField axi) with
  | some (.num _) => true
  | _ => false

/-- Modelled from the spec: the field name the spec assigns to each axis
value shape — `currentAngle` for `BRAKE`, `THROTTLE`, `CLUTCH` and
`rotation` for `STEERING` (for refinement comparison with
`codeAxisField`). -/
def specAxisField : AXIS → String
  | .BRAKE => "currentAngle"
  | .THROTTLE => "currentAngle"
  | .CLUTCH => "currentAngle"
  | .STEERING => "rotation"

/-- Modelled from the spec: whether a value has the spec's axis value
shape, an object whose `specAxisField` member is a number. -/
def specAxisShape (axi : AXIS) (v : JValue) : Bool :=
  match v.get? (specAxisField axi) with
  | some (.num _) => true
  | _ => false

/-- First-match lookup of an axis's callback list in the registry (JS
object keys are unique, so at most one entry per axis exists in any
reachable registry). -/
def cbsOf : List (AXIS × List Nat) → AXIS → List Nat
  | [], _ => []
  | (a, cbs) :: rest, axi => if a = axi then cbs else cbsOf rest axi

/-- The invocation events of a trace that belong to one axis. -/
def eventsFor (axi : AXIS) (evs : List Event) : List Event :=
  evs.filter fun e =>
    match e with
    | .invoke a _ _ => a == axi
    | _ => false

/-! ### Helper lemmas -/

theorem jsSplit_ne_nil (sep : Char) (cs : List Char) : jsSplit sep cs ≠ [] := by
  induction cs with
  | nil => simp [jsSplit]
  | cons c cs ih =>
    simp only [jsSplit]
    by_cases hc : c = sep
    · simp [hc]
    · simp only [if_neg hc]
      cases h : jsSplit sep cs <;> simp

theorem jsSplit_of_not_mem {sep : Char} {xs : List Char} (h : sep ∉ xs) :
    jsSplit sep xs = [xs] := by
  induction xs with
  | nil => rfl
  | cons c cs ih =>
    simp only [List.mem_cons, not_or] at h
    have hcs : ¬ c = sep := fun hh => h.1 hh.symm
    simp only [jsSplit, ih h.2, if_neg hcs]

theorem jsSplit_append {sep : Char} {xs : List Char} (ys : List Char)
    (h : sep ∉ xs) : jsSplit sep (xs ++ sep :: ys) = xs :: jsSplit sep ys := by
  induction xs with
  | nil => simp [jsSplit]
  | cons c cs ih =>
    simp only [List.mem_cons, not_or] at h
    have hcs : ¬ c = sep := fun hh => h.1 hh.symm
    simp only [List.cons_append, jsSplit, List.append_eq, ih h.2, if_neg hcs]

theorem hsAck_split : jsSplit '|' Client.hsAck = ["-1".data, "echo".data] := by decide

theorem ne_hsAck_two {id p : List Char} (hid : '|' ∉ id) (hp : '|' ∉ p)
    (hne : ¬(id = "-1".data ∧ p = "echo".data)) : id ++ '|' :: p ≠ Client.hsAck := by
  intro h
  have hs : jsSplit '|' (id ++ '|' :: p) = [id, p] := by
    rw [jsSplit_append p hid, jsSplit_of_not_mem hp]
  rw [h, hsAck_split] at hs
  simp only [List.cons.injEq, and_true] at hs
  exact hne ⟨hs.1.symm, hs.2.symm⟩

theorem ne_hsAck_three {id p1 : List Char} (p2 : List Char)
    (hid : '|' ∉ id) (hp1 : '|' ∉ p1) :
    id ++ '|' :: (p1 ++ '|' :: p2) ≠ Client.hsAck := by
  intro h
  have hs : jsSplit '|' (id ++ '|' :: (p1 ++ '|' :: p2)) = id :: p1 :: jsSplit '|' p2 := by
    rw [jsSplit_append _ hid, jsSplit_append _ hp1]
  rw [h, hsAck_split] at hs
  simp only [List.cons.injEq] at hs
  exact jsSplit_ne_nil '|' p2 hs.2.2.symm

theorem mem_trigger_invoke {st : ClientState} {e : Event}
    (h : e ∈ Client.trigger st) :
    ∃ a c v, e = .invoke a c v ∧ Client.axisLookup st.data a = some v ∧
      v.truthy = true := by
  simp only [Client.trigger, List.mem_flatMap] at h
  obtain ⟨p, _, he⟩ := h
  cases hl : Client.axisLookup st.data p.1 with
  | none => rw [hl] at he; simp at he
  | some v =>
    rw [hl] at he
    have he2 : e ∈ (if v.truthy = true then
        p.2.map fun c => Event.invoke p.1 c v else ([] : List Event)) := he
    by_cases ht : v.truthy = true
    · rw [if_pos ht] at he2
      obtain ⟨c, _, rfl⟩ := List.mem_map.mp he2
      exact ⟨p.1, c, v, rfl, hl, ht⟩
    · rw [if_neg ht] at he2
      simp at he2

theorem trigger_only_invokes {st : ClientState} {e : Event}
    (h : e ∈ Client.trigger st) : ∃ a c v, e = .invoke a c v := by
  obtain ⟨a, c, v, he, _, _⟩ := mem_trigger_invoke h
  exact ⟨a, c, v, he⟩


theorem trigger_cons (a : AXIS) (cbs : List Nat) (l : List (AXIS × List Nat))
    (d : JValue) :
    Client.trigger ⟨(a, cbs) :: l, d⟩ =
      (match Client.axisLookup d a with
       | some v => if v.truthy = true then cbs.map fun c => Event.invoke a c v
                   else []
       | none => []) ++ Client.trigger ⟨l, d⟩ := by
  simp [Client.trigger]

theorem eventsFor_append (axi : AXIS) (xs ys : List Event) :
    eventsFor axi (xs ++ ys) = eventsFor axi xs ++ eventsFor axi ys := by
  simp [eventsFor]

theorem eventsFor_cons_invoke (axi a : AXIS) (c : Nat) (v : JValue)
    (evs : List Event) :
    eventsFor axi (Event.invoke a c v :: evs) =
      if a = axi then Event.invoke a c v :: eventsFor axi evs
      else eventsFor axi evs := by
  simp only [eventsFor, List.filter_cons]
  by_cases hax : a = axi
  · subst hax; simp
  · simp [hax]

theorem eventsFor_map_invoke (axi a : AXIS) (cbs : List Nat) (v : JValue) :
    eventsFor axi (cbs.map fun c => Event.invoke a c v) =
      if a = axi then cbs.map (fun c => Event.invoke a c v) else [] := by
  induction cbs with
  | nil => simp [eventsFor]
  | cons c cbs ih =>
    simp only [List.map_cons, eventsFor_cons_invoke, ih]
    by_cases hax : a = axi
    · simp [hax]
    · simp [hax]

theorem eventsFor_head_ne {axi a : AXIS} (hax : ¬ a = axi) (cbs : List Nat)
    (d : JValue) :
    eventsFor axi
      ((match Client.axisLookup d a with
        | some v => if v.truthy = true then cbs.map fun c => Event.invoke a c v
                    else []
        | none => []) : List Event) = [] := by
  cases hla : Client.axisLookup d a with
  | none => rfl
  | some w =>
    show eventsFor axi
      (if w.truthy = true then cbs.map fun c => Event.invoke a c w else []) = []
    by_cases htw : w.truthy = true
    · rw [if_pos htw, eventsFor_map_invoke, if_neg hax]
    · rw [if_neg htw]; rfl

theorem eventsFor_trigger_not_mem {axi : AXIS} {l : List (AXIS × List Nat)}
    (d : JValue) (h : axi ∉ l.map Prod.fst) :
    eventsFor axi (Client.trigger ⟨l, d⟩) = [] := by
  induction l with
  | nil => rfl
  | cons p rest ih =>
    obtain ⟨a, cbs⟩ := p
    simp only [List.map_cons, List.mem_cons, not_or] at h
    rw [trigger_cons, eventsFor_append, ih h.2, List.append_nil,
      eventsFor_head_ne (fun hh => h.1 hh.symm)]

theorem eventsFor_trigger {st : ClientState} {axi : AXIS} {v : JValue}
    (hnd : (st.listeners.map Prod.fst).Nodup)
    (hl : Client.axisLookup st.data axi = some v) (ht : v.truthy = true) :
    eventsFor axi (Client.trigger st) =
      (cbsOf st.listeners axi).map fun c => Event.invoke axi c v := by
  obtain ⟨l, d⟩ := st
  simp only at hnd hl ⊢
  induction l with
  | nil => rfl
  | cons p rest ih =>
    obtain ⟨a, cbs⟩ := p
    simp only [List.map_cons, List.nodup_cons] at hnd
    rw [trigger_cons, eventsFor_append]
    by_cases hax : a = axi
    · subst hax
      rw [eventsFor_trigger_not_mem d hnd.1, List.append_nil, hl]
      show eventsFor a
          (if v.truthy = true then cbs.map fun c => Event.invoke a c v else []) =
        (cbsOf ((a, cbs) :: rest) a).map fun c => Event.invoke a c v
      rw [if_pos ht, eventsFor_map_invoke, if_pos rfl]
      simp [cbsOf]
    · rw [eventsFor_head_ne hax, List.nil_append, ih hnd.2]
      simp [cbsOf, hax]

theorem cbsOf_addListenerTo (l : List (AXIS × List Nat)) (axi : AXIS)
    (cb : Nat) :
    cbsOf (addListenerTo l axi cb) axi = cbsOf l axi ++ [cb] := by
  induction l with
  | nil => simp [addListenerTo, cbsOf]
  | cons p rest ih =>
    obtain ⟨a, cbs⟩ := p
    by_cases hax : a = axi
    · subst hax; simp [addListenerTo, cbsOf]
    · simp [addListenerTo, cbsOf, hax, ih]

theorem map_fst_addListenerTo (l : List (AXIS × List Nat)) (axi : AXIS)
    (cb : Nat) :
    (addListenerTo l axi cb).map Prod.fst =
      if axi ∈ l.map Prod.fst then l.map Prod.fst
      else l.map Prod.fst ++ [axi] := by
  induction l with
  | nil => simp [addListenerTo]
  | cons p rest ih =>
    obtain ⟨a, cbs⟩ := p
    by_cases hax : a = axi
    · subst hax; simp [addListenerTo]
    · have hxa : ¬ axi = a := fun hh => hax hh.symm
      simp only [addListenerTo, if_neg hax, List.map_cons, ih,
        List.mem_cons]
      by_cases hm : axi ∈ rest.map Prod.fst
      · simp [hm, hxa]
      · simp [hm, hxa]

theorem nodup_addListenerTo {l : List (AXIS × List Nat)} (axi : AXIS)
    (cb : Nat) (h : (l.map Prod.fst).Nodup) :
    ((addListenerTo l axi cb).map Prod.fst).Nodup := by
  rw [map_fst_addListenerTo]
  by_cases hm : axi ∈ l.map Prod.fst
  · rwa [if_pos hm]
  · rw [if_neg hm]
    rw [List.nodup_append]
    exact ⟨h, List.nodup_singleton _, fun x hx hy => by
      simp only [List.mem_singleton] at hy
      exact hm (hy ▸ hx)⟩

/-! ### Claim theorems -/

/-- Claim C2 (confirmed): for every connection, after the transport signals
open and the server then delivers the acknowledgement token `-1|echo`, the
client has sent exactly five messages, in this order and each as an
independent message: `echo|`, `pid|-1`, `mainTemplateLoading|`,
`registerComponents|/Dashtemplates/RSC - Input Display - Analog/RSC - Input
Display - Analog.djson`, `mainTemplateLoaded|` — whatever listeners are
registered. -/
theorem handshake_five_sends (l : List (AXIS × List Nat)) :
    Client.connectionEvents l [Client.hsAck] =
      [.send "echo|".data,
       .send "pid|-1".data,
       .send "mainTemplateLoading|".data,
       .send "registerComponents|/Dashtemplates/RSC - Input Display - Analog/RSC - Input Display - Analog.djson".data,
       .send "mainTemplateLoaded|".data] := rfl

/-- Claim C4 (counterexample): delivering the acknowledgement token a second
time, after the client has already entered steady state, makes the client
send the four-message initialization burst again, so the handshake is not
executed at most once per connection. -/
theorem handshake_reexecuted_cex :
    Client.connectionEvents [] [Client.hsAck, Client.hsAck] =
      .send "echo|".data ::
        (Client.handshakeBurst ++ Client.handshakeBurst) ∧
    Client.handshakeBurst ≠ [] := by decide

/-- Claim C4 (amended): the client keeps no handshake state: every inbound
message is handled by exactly one run of the `onmessage` handler appended to
the trace (first conjunct), and any inbound message equal to `-1|echo` —
whenever it arrives — triggers the four-message burst and leaves the state
unchanged (second conjunct). -/
theorem ack_token_always_bursts :
    (∀ (st : ClientState) (msgs : List (List Char)) (m : List Char),
      Client.processMessages st (msgs ++ [m]) =
        ((Client.onmessage (Client.processMessages st msgs).1 m).state,
          (Client.processMessages st msgs).2 ++
            (Client.onmessage (Client.processMessages st msgs).1 m).events)) ∧
    (∀ st : ClientState,
      Client.onmessage st Client.hsAck = ⟨st, Client.handshakeBurst, false⟩) := by
  constructor
  · intro st msgs m
    induction msgs generalizing st with
    | nil => simp [Client.processMessages]
    | cons x xs ih => simp [Client.processMessages, ih, List.append_assoc]
  · intro st
    rfl

/-- Claim C6 (confirmed): a callback registered for an axis is invoked for a
frame only when the frame holds a value at the axis's designated location
(and then with exactly that value, never with `undefined`); when the
location is absent the callback is skipped. -/
theorem callback_only_when_present (st : ClientState) (axi : AXIS) (c : Nat)
    (v : JValue) :
    (Event.invoke axi c v ∈ Client.trigger st →
      Client.axisLookup st.data axi = some v) ∧
    (Client.axisLookup st.data axi = none →
      Event.invoke axi c v ∉ Client.trigger st) := by
  constructor
  · intro h
    obtain ⟨a, c2, v2, he, hl, _⟩ := mem_trigger_invoke h
    injection he with h1 h2 h3
    subst h1
    subst h3
    exact hl
  · intro hn h
    obtain ⟨a, c2, v2, he, hl, _⟩ := mem_trigger_invoke h
    injection he with h1 h2 h3
    subst h1
    rw [hl] at hn
    exact Option.noConfusion hn

/-- A frame holding a throttle value only, used to witness C6. -/
def c6Frame : JValue :=
  .obj (.cons "d"
    (.obj (.cons "C"
      (.obj (.cons "1_13r0"
        (.obj (.cons "CurrentAngle" (.num ⟨false, 9, 0⟩) .nil)) .nil)) .nil)) .nil)

theorem callback_only_when_present_witness :
    Client.axisLookup c6Frame .CLUTCH = none ∧
    Event.invoke .CLUTCH 3 (.obj (.cons "CurrentAngle" (.num ⟨false, 9, 0⟩) .nil)) ∉
      Client.trigger ⟨[(.CLUTCH, [3]), (.THROTTLE, [4])], c6Frame⟩ :=
  ⟨by decide,
    (callback_only_when_present ⟨[(.CLUTCH, [3]), (.THROTTLE, [4])], c6Frame⟩
      .CLUTCH 3 (.obj (.cons "CurrentAngle" (.num ⟨false, 9, 0⟩) .nil))).2
      (by decide)⟩

/-- Claim C10 (confirmed): presence is decided by JavaScript truthiness —
when the value stored at an axis's designated path is falsy (0, null,
false, the empty string), every callback registered for that axis is
skipped for that frame. -/
theorem falsy_value_skips_callbacks (st : ClientState) (axi : AXIS) (c : Nat)
    (v w : JValue) (hl : Client.axisLookup st.data axi = some w)
    (hf : w.truthy = false) :
    Event.invoke axi c v ∉ Client.trigger st := by
  intro h
  obtain ⟨a, c2, v2, he, hl2, ht⟩ := mem_trigger_invoke h
  injection he with h1 h2 h3
  subst h1
  rw [hl] at hl2
  have hw : w = v2 := Option.some.inj hl2
  rw [hw, ht] at hf
  exact Bool.noConfusion hf

/-- A frame holding the (falsy) number 0 at BRAKE's path, witnessing C10. -/
def c10Frame : JValue :=
  .obj (.cons "d"
    (.obj (.cons "C"
      (.obj (.cons "1_15r0" (.num ⟨false, 0, 0⟩) .nil)) .nil)) .nil)

theorem falsy_value_skips_callbacks_witness :
    Client.axisLookup c10Frame .BRAKE = some (.num ⟨false, 0, 0⟩) ∧
    (JValue.num ⟨false, 0, 0⟩).truthy = false ∧
    Event.invoke .BRAKE 5 (.num ⟨false, 0, 0⟩) ∉
      Client.trigger ⟨[(.BRAKE, [5])], c10Frame⟩ :=
  ⟨by decide, by decide,
    falsy_value_skips_callbacks ⟨[(.BRAKE, [5])], c10Frame⟩ .BRAKE 5
      (.num ⟨false, 0, 0⟩) (.num ⟨false, 0, 0⟩) (by decide) (by decide)⟩

/-- The frame the code's own `IAXIS_DATA` interface describes: the BRAKE
value carries a capitalized `CurrentAngle` field. -/
def brakeUpperVal : JValue :=
  .obj (.cons "CurrentAngle" (.num ⟨false, 17, 0⟩) .nil)

/-- A data-frame message placing `{"CurrentAngle":17}` at BRAKE's path. -/
def brakeUpperMsg : List Char :=
  "1|\x7b\"d\":\x7b\"C\":\x7b\"1_15r0\":\x7b\"CurrentAngle\":17\x7d\x7d\x7d\x7d".data

/-- Claim C3 (counterexample): a frame holding, at BRAKE's designated path,
exactly the value shape the source declares (`{"CurrentAngle":17}`, with a
capitalized field as in `IAXIS_DATA` and as destructured by
`ClientProvider.tsx`) invokes the BRAKE callback with a value that does NOT
have the spec's claimed shape `{ currentAngle: number }` — the spec's field
name is wrong, so callbacks do not in general receive the spec's shape. -/
theorem axis_shape_spec_cex :
    (Client.onmessage ⟨[(.BRAKE, [0])], .obj .nil⟩ brakeUpperMsg).events =
      [.send "pid|1".data, .invoke .BRAKE 0 brakeUpperVal] ∧
    specAxisShape .BRAKE brakeUpperVal = false ∧
    codeAxisShape .BRAKE brakeUpperVal = true := by decide

/-- The value `{currentAngle: 17}` of the claim's concrete scenario. -/
def brakeLowerVal : JValue :=
  .obj (.cons "currentAngle" (.num ⟨false, 17, 0⟩) .nil)

/-- A data-frame message placing `{"currentAngle":17}` at BRAKE's path. -/
def brakeLowerMsg : List Char :=
  "1|\x7b\"d\":\x7b\"C\":\x7b\"1_15r0\":\x7b\"currentAngle\":17\x7d\x7d\x7d\x7d".data

/-- The parsed frame of `brakeLowerMsg`. -/
def brakeLowerFrame : JValue :=
  .obj (.cons "d"
    (.obj (.cons "C" (.obj (.cons "1_15r0" brakeLowerVal .nil)) .nil)) .nil)

/-- Claim C3 (amended): the client passes the value stored at the axis's
designated path through to the callbacks verbatim — whatever its shape
(the shapes the source declares use capitalized `CurrentAngle`/`Rotation`
fields); in particular a BRAKE callback is invoked with exactly
`{currentAngle: 17}` when that value sits at BRAKE's path. -/
theorem axis_value_passthrough :
    (∀ (st : ClientState) (axi : AXIS) (c : Nat) (v : JValue),
      Event.invoke axi c v ∈ Client.trigger st →
        Client.axisLookup st.data axi = some v) ∧
    (Client.onmessage ⟨[(.BRAKE, [0])], .obj .nil⟩ brakeLowerMsg).events =
      [.send "pid|1".data, .invoke .BRAKE 0 brakeLowerVal] := by
  constructor
  · intro st axi c v h
    obtain ⟨a, c2, v2, he, hl, _⟩ := mem_trigger_invoke h
    injection he with h1 h2 h3
    subst h1
    subst h3
    exact hl
  · decide

theorem axis_value_passthrough_witness :
    Event.invoke .BRAKE 0 brakeLowerVal ∈
      Client.trigger ⟨[(.BRAKE, [0])], brakeLowerFrame⟩ ∧
    Client.axisLookup brakeLowerFrame .BRAKE = some brakeLowerVal :=
  ⟨by decide,
    axis_value_passthrough.1 ⟨[(.BRAKE, [0])], brakeLowerFrame⟩ .BRAKE 0
      brakeLowerVal (by decide)⟩

/-- Claim C9 (confirmed): two `addListener` calls for the same axis append
both callbacks, and for every frame holding a (truthy) value at that axis's
path the invocation trace for that axis lists every registered callback in
registration order — in particular the two new callbacks, in order, after
any previously registered ones. -/
theorem two_registrations_in_order (st : ClientState) (axi : AXIS)
    (c1 c2 : Nat) (v : JValue)
    (hnd : (st.listeners.map Prod.fst).Nodup)
    (hl : Client.axisLookup st.data axi = some v) (ht : v.truthy = true) :
    cbsOf ((Client.addListener (Client.addListener st axi c1).1 axi c2).1.listeners)
        axi = cbsOf st.listeners axi ++ [c1, c2] ∧
    eventsFor axi
        (Client.trigger (Client.addListener (Client.addListener st axi c1).1 axi c2).1) =
      (cbsOf st.listeners axi ++ [c1, c2]).map fun c => Event.invoke axi c v := by
  have hlist :
      (Client.addListener (Client.addListener st axi c1).1 axi c2).1.listeners =
        addListenerTo (addListenerTo st.listeners axi c1) axi c2 := rfl
  have hdata :
      (Client.addListener (Client.addListener st axi c1).1 axi c2).1.data =
        st.data := rfl
  have hcbs : cbsOf (addListenerTo (addListenerTo st.listeners axi c1) axi c2) axi =
      cbsOf st.listeners axi ++ [c1, c2] := by
    rw [cbsOf_addListenerTo, cbsOf_addListenerTo, List.append_assoc]
    rfl
  refine ⟨hlist ▸ hcbs, ?_⟩
  rw [eventsFor_trigger (v := v) ?hnd ?hl ht]
  · rw [hlist, hcbs]
  case hnd =>
    rw [hlist]
    exact nodup_addListenerTo axi c2 (nodup_addListenerTo axi c1 hnd)
  case hl =>
    rw [hdata]
    exact hl

/-- A frame holding a brake value, used to witness C9. -/
def c9Frame : JValue :=
  .obj (.cons "d"
    (.obj (.cons "C"
      (.obj (.cons "1_15r0"
        (.obj (.cons "CurrentAngle" (.num ⟨false, 3, 0⟩) .nil)) .nil)) .nil)) .nil)

theorem two_registrations_in_order_witness :
    ((([] : List (AXIS × List Nat)).map Prod.fst).Nodup ∧
      Client.axisLookup c9Frame .BRAKE =
        some (.obj (.cons "CurrentAngle" (.num ⟨false, 3, 0⟩) .nil)) ∧
      (JValue.obj (.cons "CurrentAngle" (.num ⟨false, 3, 0⟩) .nil)).truthy = true) ∧
    eventsFor .BRAKE
        (Client.trigger
          (Client.addListener (Client.addListener ⟨[], c9Frame⟩ .BRAKE 1).1 .BRAKE 2).1) =
      [.invoke .BRAKE 1 (.obj (.cons "CurrentAngle" (.num ⟨false, 3, 0⟩) .nil)),
       .invoke .BRAKE 2 (.obj (.cons "CurrentAngle" (.num ⟨false, 3, 0⟩) .nil))] :=
  ⟨⟨by decide, by decide, by decide⟩,
    (two_registrations_in_order ⟨[], c9Frame⟩ .BRAKE 1 2
      (.obj (.cons "CurrentAngle" (.num ⟨false, 3, 0⟩) .nil))
      (by decide) (by decide) (by decide)).2⟩

/-- Claim C1 (counterexample): an inbound steady-state message whose payload
part is not valid JSON makes the `onmessage` handler throw — `JSON.parse`
is not wrapped in any local handler — although no callback is invoked and
the stored frame is unchanged. -/
theorem unparsable_payload_throws_cex :
    JSON.parse "notjson".data = none ∧
    Client.onmessage ⟨[(.BRAKE, [0])], .obj .nil⟩ "7|notjson".data =
      ⟨⟨[(.BRAKE, [0])], .obj .nil⟩, [.send "pid|7".data], true⟩ := by decide

/-- Claim C1 (amended): for a steady-state message whose payload part fails
JSON parsing, the handler sends the per-message ack and then throws: the
exception escapes the handler, but zero subscriber callbacks are invoked,
the stored frame is unchanged, and subsequent message handling continues
from the same state. -/
theorem unparsable_payload_isolated_but_throws (st : ClientState)
    (msg p : List Char) (rest : List (List Char))
    (hm : msg ≠ Client.hsAck)
    (h1 : (jsSplit '|' msg)[1]? = some p) (hp : JSON.parse p = none) :
    Client.onmessage st msg =
      ⟨st, [.send ("pid|".data ++ (jsSplit '|' msg).headD [])], true⟩ ∧
    Client.processMessages st (msg :: rest) =
      ((Client.processMessages st rest).1,
        .send ("pid|".data ++ (jsSplit '|' msg).headD []) ::
          (Client.processMessages st rest).2) := by
  have hstep : Client.onmessage st msg =
      ⟨st, [.send ("pid|".data ++ (jsSplit '|' msg).headD [])], true⟩ := by
    simp only [Client.onmessage, if_neg hm, h1, hp]
  refine ⟨hstep, ?_⟩
  simp only [Client.processMessages, hstep, List.singleton_append]

theorem unparsable_payload_isolated_but_throws_witness :
    ("7|notjson".data ≠ Client.hsAck ∧
      (jsSplit '|' "7|notjson".data)[1]? = some "notjson".data ∧
      JSON.parse "notjson".data = none) ∧
    Client.onmessage ⟨[], .obj .nil⟩ "7|notjson".data =
      ⟨⟨[], .obj .nil⟩,
        [.send ("pid|".data ++ (jsSplit '|' "7|notjson".data).headD [])],
        true⟩ :=
  ⟨⟨by decide, by decide, by decide⟩,
    (unparsable_payload_isolated_but_throws ⟨[], .obj .nil⟩ "7|notjson".data
      "notjson".data [] (by decide) (by decide) (by decide)).1⟩

/-- Claim C5 (counterexample): for the message `42|{"a":"x|y"}` the entire
remainder after the first `|` is valid JSON, yet the handler throws and
stores nothing, because `split("|")` cut the payload at the second `|` —
the payload used is not the entire remainder. -/
theorem payload_truncated_at_second_pipe_cex :
    JSON.parse "\x7b\"a\":\"x|y\"\x7d".data =
      some (.obj (.cons "a" (.str "x|y") .nil)) ∧
    (Client.onmessage ⟨[], .obj .nil⟩ "42|\x7b\"a\":\"x|y\"\x7d".data).threw =
      true ∧
    (Client.onmessage ⟨[], .obj .nil⟩ "42|\x7b\"a\":\"x|y\"\x7d".data).state.data =
      .obj .nil := by decide

/-- Claim C5 (amended): the client splits the message on every `|` and uses
element 1 — the segment between the first and the second `|` — as the
payload; everything after a second `|` is ignored, so the handler behaves
identically with or without it. -/
theorem payload_is_second_segment (st : ClientState) (id p1 p2 : List Char)
    (hid : '|' ∉ id) (hp1 : '|' ∉ p1)
    (hne : ¬(id = "-1".data ∧ p1 = "echo".data)) :
    Client.onmessage st (id ++ '|' :: (p1 ++ '|' :: p2)) =
      Client.onmessage st (id ++ '|' :: p1) := by
  have h3 : jsSplit '|' (id ++ '|' :: (p1 ++ '|' :: p2)) =
      id :: p1 :: jsSplit '|' p2 := by
    rw [jsSplit_append _ hid, jsSplit_append _ hp1]
  have h2 : jsSplit '|' (id ++ '|' :: p1) = [id, p1] := by
    rw [jsSplit_append _ hid, jsSplit_of_not_mem hp1]
  have hm3 := ne_hsAck_three p2 hid hp1
  have hm2 := ne_hsAck_two hid hp1 hne
  unfold Client.onmessage
  rw [if_neg hm3, if_neg hm2, h3, h2]
  simp

theorem payload_is_second_segment_witness :
    (('|' ∉ "7".data) ∧ ('|' ∉ "8".data) ∧
      ¬("7".data = "-1".data ∧ "8".data = "echo".data)) ∧
    Client.onmessage ⟨[], .obj .nil⟩ ("7".data ++ '|' :: ("8".data ++ '|' :: "9".data)) =
      Client.onmessage ⟨[], .obj .nil⟩ ("7".data ++ '|' :: "8".data) :=
  ⟨⟨by decide, by decide, by decide⟩,
    payload_is_second_segment ⟨[], .obj .nil⟩ "7".data "8".data "9".data
      (by decide) (by decide) (by decide)⟩

/-- Claim C7 (confirmed): for every steady-state inbound message of the
form `<id>|<payload>`, the handler's first event is the acknowledgement
send `pid|<id>`; everything after it is callback invocations, so the ack
is sent before any subscriber callback runs. -/
theorem ack_sent_before_callbacks (st : ClientState) (id payload : List Char)
    (hid : '|' ∉ id) (hm : id ++ '|' :: payload ≠ Client.hsAck) :
    ∃ evs, (Client.onmessage st (id ++ '|' :: payload)).events =
        Event.send ("pid|".data ++ id) :: evs ∧
      ∀ e ∈ evs, ∃ a c v, e = Event.invoke a c v := by
  have hsplit : jsSplit '|' (id ++ '|' :: payload) = id :: jsSplit '|' payload :=
    jsSplit_append payload hid
  cases hjs : jsSplit '|' payload with
  | nil => exact absurd hjs (jsSplit_ne_nil '|' payload)
  | cons p ts =>
    rw [hjs] at hsplit
    cases hp : JSON.parse p with
    | none =>
      refine ⟨[], ?_, by simp⟩
      simp [Client.onmessage, if_neg hm, hsplit, hp]
    | some v =>
      refine ⟨Client.trigger ⟨st.listeners, v⟩, ?_,
        fun e he => trigger_only_invokes he⟩
      simp [Client.onmessage, if_neg hm, hsplit, hp]

theorem ack_sent_before_callbacks_witness :
    (('|' ∉ "42".data) ∧
      "42".data ++ '|' :: "\x7b\"d\":\x7b\x7d\x7d".data ≠ Client.hsAck) ∧
    (∃ evs,
      (Client.onmessage ⟨[], .obj .nil⟩
          ("42".data ++ '|' :: "\x7b\"d\":\x7b\x7d\x7d".data)).events =
        Event.send ("pid|".data ++ "42".data) :: evs ∧
      ∀ e ∈ evs, ∃ a c v, e = Event.invoke a c v) :=
  ⟨⟨by decide, by decide⟩,
    ack_sent_before_callbacks ⟨[], .obj .nil⟩ "42".data
      "\x7b\"d\":\x7b\x7d\x7d".data (by decide) (by decide)⟩

/-- The STEERING value `{rotation: 5}` of C8's scenario. -/
def steer5Val : JValue := .obj (.cons "rotation" (.num ⟨false, 5, 0⟩) .nil)

/-- The STEERING value `{rotation: -5}` of C8's scenario. -/
def steerNeg5Val : JValue := .obj (.cons "rotation" (.num ⟨true, 5, 0⟩) .nil)

/-- A data-frame message placing `{"rotation":5}` at STEERING's path. -/
def steer5Msg : List Char :=
  "1|\x7b\"d\":\x7b\"C\":\x7b\"1_2\":\x7b\"rotation\":5\x7d\x7d\x7d\x7d".data

/-- A data-frame message placing `{"rotation":-5}` at STEERING's path. -/
def steerNeg5Msg : List Char :=
  "2|\x7b\"d\":\x7b\"C\":\x7b\"1_2\":\x7b\"rotation\":-5\x7d\x7d\x7d\x7d".data

/-- The parsed frame of `steer5Msg`. -/
def steer5Frame : JValue :=
  .obj (.cons "d"
    (.obj (.cons "C" (.obj (.cons "1_2" steer5Val .nil)) .nil)) .nil)

/-- Claim C8 (confirmed): the stored latest frame is replaced wholesale by
the parsed payload of each inbound message — the resulting state is
exactly the old listeners with the parsed object as data, independent of
the previous frame (first conjunct); in the claim's concrete scenario, two
consecutive frames putting `{rotation: 5}` and then `{rotation: -5}` at
STEERING's path invoke the registered STEERING callback exactly twice, with
`-5` last (second conjunct). -/
theorem frame_replaced_wholesale :
    (∀ (st : ClientState) (msg p : List Char) (v : JValue),
      msg ≠ Client.hsAck → (jsSplit '|' msg)[1]? = some p →
      JSON.parse p = some v →
      (Client.onmessage st msg).state =
        { listeners := st.listeners, data := v }) ∧
    eventsFor .STEERING
        (Client.processMessages ⟨[(.STEERING, [0])], .obj .nil⟩
          [steer5Msg, steerNeg5Msg]).2 =
      [.invoke .STEERING 0 steer5Val, .invoke .STEERING 0 steerNeg5Val] := by
  constructor
  · intro st msg p v hm h1 hp
    simp [Client.onmessage, if_neg hm, h1, hp]
  · decide

theorem frame_replaced_wholesale_witness :
    (steer5Msg ≠ Client.hsAck ∧
      (jsSplit '|' steer5Msg)[1]? =
        some "\x7b\"d\":\x7b\"C\":\x7b\"1_2\":\x7b\"rotation\":5\x7d\x7d\x7d\x7d".data ∧
      JSON.parse "\x7b\"d\":\x7b\"C\":\x7b\"1_2\":\x7b\"rotation\":5\x7d\x7d\x7d\x7d".data =
        some steer5Frame) ∧
    (Client.onmessage ⟨[], .obj (.cons "old" .null .nil)⟩ steer5Msg).state =
      { listeners := [], data := steer5Frame } :=
  ⟨⟨by decide, by decide, by decide⟩,
    frame_replaced_wholesale.1 ⟨[], .obj (.cons "old" .null .nil)⟩ steer5Msg
      "\x7b\"d\":\x7b\"C\":\x7b\"1_2\":\x7b\"rotation\":5\x7d\x7d\x7d\x7d".data
      steer5Frame (by decide) (by decide) (by decide)⟩
